import Mathlib

/-
Verification of the lexical-primitive layer of hb_parse
(src/hb_parse/src/parser_funcs.rs) over a shallow embedding.

The parser functions are translated from `parser_funcs.rs`.  The backing
`Source` implementation (`StrParser`, in `source.rs`) and the error type
(`error.rs`) are not part of the sources; they are modelled from the spec's
cursor contract (spec sections 3, 4.1 and 6): a committed position plus an
uncommitted lookahead offset, `peek`/`next` for lookahead, `consume` to commit,
`reset_pointer_loc` to roll back, `read_substr` to extract.  The in-memory
reference source never fails, so the backing-store error branches of the Rust
code (which only fire on backing-store failures) are unreachable and the
`Result` wrappers of the cursor methods are dropped.  Strings are modelled as
lists of characters and positions as code-point indices.
-/

set_option maxRecDepth 2048
set_option maxHeartbeats 1000000

namespace HbParse

/-- Error kinds of the hb_parse error model (spec section 3): `empty` for input
exhausted, `unexpected` for a character mismatch, `generic` for message-only
failures. -/
inductive ErrKind where
  | empty
  | unexpected
  | generic
deriving DecidableEq

/-- Modelled from the spec: the error type of hb_parse (its `error.rs` is not
under `src/`); an error carries a kind and a root message.  Context breadcrumbs
are not modelled: per spec section 6, `attach_context` preserves the kind and
the root message, and no claim concerns breadcrumbs. -/
structure ParseError where
  kind : ErrKind
  msg : String
deriving DecidableEq

/-- Result type of the parser functions (`ParseResult` in the source). -/
abbrev ParseResult (α : Type) := Except ParseError α

/-- Modelled from the spec: the in-memory reference implementation of the
`Source` trait (`source.rs` / `StrParser` are not under `src/`), following the
cursor contract of spec sections 3 and 4.1: `committed` is the committed
position and `pointer` the uncommitted lookahead offset relative to it. -/
structure StrParser where
  input : List Char
  committed : Nat
  pointer : Nat
deriving DecidableEq

/-- Rust `StrParser::new`: a fresh cursor over the given input. -/
def StrParser.new (s : String) : StrParser :=
  ⟨s.toList, 0, 0⟩

/-- Characters not yet passed over by the lookahead. -/
def remaining (s : StrParser) : List Char :=
  s.input.drop (s.committed + s.pointer)

/-- Modelled from the spec: `get_pointer_loc` is the lookahead offset relative
to the last commit (spec 4.1). -/
def get_pointer_loc (s : StrParser) : Nat :=
  s.pointer

/-- Modelled from the spec: `peek` returns the next character and its position
without advancing the lookahead; `none` signals end of input (spec 4.1). -/
def peek (s : StrParser) : Option (Nat × Char) :=
  match remaining s with
  | [] => none
  | c :: _ => some (s.pointer, c)

/-- Modelled from the spec: `next` is `peek` plus advancing the lookahead past
the returned character (spec 4.1). -/
def next (s : StrParser) : Option (Nat × Char) × StrParser :=
  match remaining s with
  | [] => (none, s)
  | _ :: _ => (peek s, ⟨s.input, s.committed, s.pointer + 1⟩)

/-- Advance the lookahead by `n` characters (iterated `next`, dropping the
returned characters). -/
def advance (s : StrParser) (n : Nat) : StrParser :=
  ⟨s.input, s.committed, s.pointer + n⟩

/-- Modelled from the spec: `consume n` commits the first `n` lookahead
characters and collapses the lookahead to match the committed position
(spec 3). -/
def consume (s : StrParser) (n : Nat) : StrParser :=
  ⟨s.input, s.committed + n, 0⟩

/-- Modelled from the spec: `reset_pointer_loc` discards all uncommitted
lookahead, restoring the cursor to the committed position (spec 3). -/
def reset_pointer_loc (s : StrParser) : StrParser :=
  ⟨s.input, s.committed, 0⟩

/-- Modelled from the spec: `read_substr start len` materializes `len`
characters starting at lookahead-relative position `start` (spec 4.1). -/
def read_substr (s : StrParser) (start len : Nat) : List Char :=
  (s.input.drop (s.committed + start)).take len

/-- Rust `char::is_whitespace` (the Unicode `White_Space` property, a finite
set of code points, listed exhaustively below). -/
def rustIsWhitespace (c : Char) : Bool :=
  decide ((0x09 ≤ c.toNat ∧ c.toNat ≤ 0x0D) ∨ c.toNat = 0x20 ∨ c.toNat = 0x85 ∨
    c.toNat = 0xA0 ∨ c.toNat = 0x1680 ∨ (0x2000 ≤ c.toNat ∧ c.toNat ≤ 0x200A) ∨
    c.toNat = 0x2028 ∨ c.toNat = 0x2029 ∨ c.toNat = 0x202F ∨ c.toNat = 0x205F ∨
    c.toNat = 0x3000)

/-- Rust `char::is_ascii_alphanumeric`. -/
def rustIsAsciiAlphanumeric (c : Char) : Bool :=
  decide ((0x30 ≤ c.toNat ∧ c.toNat ≤ 0x39) ∨ (0x41 ≤ c.toNat ∧ c.toNat ≤ 0x5A) ∨
    (0x61 ≤ c.toNat ∧ c.toNat ≤ 0x7A))

/-- Rust `char::is_ascii_digit`. -/
def rustIsAsciiDigit (c : Char) : Bool :=
  decide (0x30 ≤ c.toNat ∧ c.toNat ≤ 0x39)

/-- Rust `char::is_alphanumeric` (Unicode alphabetic or numeric).  The full
Unicode tables are external to the repository; the model is exact on ASCII
and, beyond ASCII, covers the Latin-1 letters and numeric characters and the
enclosed-alphanumerics range U+2460-U+2473 (all of which are alphanumeric in
Unicode) - the only non-ASCII code points this development evaluates. -/
def rustIsAlphanumeric (c : Char) : Bool :=
  rustIsAsciiAlphanumeric c ||
    decide (c.toNat = 0xAA ∨ c.toNat = 0xB2 ∨ c.toNat = 0xB3 ∨ c.toNat = 0xB5 ∨
      c.toNat = 0xB9 ∨ c.toNat = 0xBA ∨ (0xBC ≤ c.toNat ∧ c.toNat ≤ 0xBE) ∨
      (0xC0 ≤ c.toNat ∧ c.toNat ≤ 0xD6) ∨ (0xD8 ≤ c.toNat ∧ c.toNat ≤ 0xF6) ∨
      (0xF8 ≤ c.toNat ∧ c.toNat ≤ 0xFF) ∨ (0x2460 ≤ c.toNat ∧ c.toNat ≤ 0x2473))

/-- Modelled from the spec: the `SourceEmpty` error of `error.rs` (kind
`Empty`); its exact message text lives in the missing `error.rs`, only the
kind is relied upon here. -/
def sourceEmpty : ParseError := ⟨.empty, "source is empty"⟩

/-- The fresh-cursor precondition failure (`parser_funcs.rs`, the
`get_pointer_loc() != 0` checks). -/
def misuseErr (p : Nat) : ParseError :=
  ⟨.generic, "Parser has already been used, and has left a pointer at position "
    ++ toString p ++ " (which should be 0)."⟩

/-- The single-quote character. -/
def squote : Char := Char.ofNat 39

/-- The double-quote character. -/
def dquote : Char := Char.ofNat 34

/-- The opening curly bracket character. -/
def lbrace : Char := Char.ofNat 123

/-- The closing curly bracket character. -/
def rbrace : Char := Char.ofNat 125

/-- `skip_whitespace` (parser_funcs.rs 446-462): advances the lookahead past
the maximal run of leading whitespace, leaving it uncommitted.  The loop of
`peek`/`next` calls is collapsed into one lookahead advance by the length of
the whitespace run; the `Result` wrapper never errors for the in-memory
source. -/
def skip_whitespace (s : StrParser) : StrParser :=
  advance s ((remaining s).takeWhile rustIsWhitespace).length

/-- `read_word` (parser_funcs.rs 50-79): skips whitespace, scans the maximal
run of (Unicode) alphanumeric characters; at end of input with nothing
scanned, errors with kind `Empty` after `reset_pointer_loc`; otherwise
extracts the scanned substring, leaving the scan uncommitted. -/
def read_word (s : StrParser) : ParseResult (List Char) × StrParser :=
  let s1 := skip_whitespace s
  let start_i := get_pointer_loc s1
  let s2 := advance s1 ((remaining s1).takeWhile rustIsAlphanumeric).length
  match peek s2 with
  | none =>
    if get_pointer_loc s2 = start_i then
      (.error ⟨.empty, "could not parse word as there are none left in the source"⟩,
        reset_pointer_loc s2)
    else
      (.ok (read_substr s2 start_i (get_pointer_loc s2 - start_i)), s2)
  | some (i, _) => (.ok (read_substr s2 start_i (i - start_i)), s2)

/-- `parse_word` (parser_funcs.rs 81-89): requires a fresh cursor, delegates
to `read_word`, then commits the whole scanned span. -/
def parse_word (s : StrParser) : ParseResult (List Char) × StrParser :=
  if s.pointer ≠ 0 then (.error (misuseErr s.pointer), s)
  else
    match read_word s with
    | (.error e, s1) => (.error e, s1)
    | (.ok w, s1) => (.ok w, consume s1 (get_pointer_loc s1))

/-- Index of the first occurrence of `ending` in the remaining characters,
`i` being the lookahead position of the first listed character: the scan loop
of `parse_string` (parser_funcs.rs 118-139), whose repeated `next` calls stop
at the first character equal to `ending`. -/
def findClose (ending : Char) : List Char → Nat → Option Nat
  | [], _ => none
  | c :: cs, i => if c = ending then some i else findClose ending cs (i + 1)

/-- The quoted-string scan of `parse_string` (parser_funcs.rs 118-139),
entered just past the opening delimiter: scan for the closing delimiter; at
end of input, roll back and error `SourceEmpty`; on the `i = 1` special case
return an empty string (without committing); otherwise extract the enclosed
content and commit through the closing delimiter. -/
def stringLoop (ending : Char) (start_i : Nat) (s : StrParser) :
    ParseResult (List Char) × StrParser :=
  match findClose ending (remaining s) s.pointer with
  | none => (.error sourceEmpty, reset_pointer_loc s)
  | some i =>
    let s1 : StrParser := ⟨s.input, s.committed, i + 1⟩
    if i = 1 then (.ok [], s1)
    else (.ok (read_substr s1 (start_i + 1) (i - start_i - 1)), consume s1 (i + 1))

/-- `parse_string` (parser_funcs.rs 91-140): requires a fresh cursor, skips
whitespace, reads one character; a quote starts the quoted-string scan, any
other character delegates to `parse_word` (which is re-entered with the
lookahead already advanced past that character). -/
def parse_string (s : StrParser) : ParseResult (List Char) × StrParser :=
  if s.pointer ≠ 0 then (.error (misuseErr s.pointer), s)
  else
    let s1 := skip_whitespace s
    let start_i := get_pointer_loc s1
    match next s1 with
    | (none, s2) => (.error sourceEmpty, reset_pointer_loc s2)
    | (some (_, c), s2) =>
      if c = squote then stringLoop squote start_i s2
      else if c = dquote then stringLoop dquote start_i s2
      else parse_word s2

/-- The closing character for an opening bracket, following the if-chain of
`parse_brackets` (parser_funcs.rs 160-176); `none` for a non-bracket. -/
def bracketClose (c : Char) : Option Char :=
  if c = '(' then some ')'
  else if c = '<' then some '>'
  else if c = '[' then some ']'
  else if c = lbrace then some rbrace
  else none

/-- The scan loop of `parse_brackets` (parser_funcs.rs 178-199): the nesting
`level` starts at 1 and is only ever decremented, on each occurrence of the
closing character; the scan returns the lookahead position at which the level
reaches zero. -/
def findCloseLvl (ending : Char) : List Char → Nat → Nat → Option Nat
  | [], _, _ => none
  | c :: cs, i, level =>
    if c = ending then
      if level - 1 = 0 then some i else findCloseLvl ending cs (i + 1) (level - 1)
    else findCloseLvl ending cs (i + 1) level

/-- `parse_brackets` (parser_funcs.rs 142-200): requires a fresh cursor, skips
whitespace, reads one character which must be an opening bracket (otherwise an
`Unexpected` error after rollback), then scans with `findCloseLvl` from level
1; at end of input rolls back with `SourceEmpty`, otherwise extracts the
enclosed span and commits through the closing character. -/
def parse_brackets (s : StrParser) : ParseResult (List Char) × StrParser :=
  if s.pointer ≠ 0 then (.error (misuseErr s.pointer), s)
  else
    let s1 := skip_whitespace s
    let start_i := get_pointer_loc s1
    match next s1 with
    | (none, s2) => (.error sourceEmpty, reset_pointer_loc s2)
    | (some (_, c), s2) =>
      match bracketClose c with
      | none =>
        (.error ⟨.unexpected, "\x27" ++ String.mk [c] ++
          "\x27 was found instead of a bracket (either (, [, < or \x7b)"⟩,
          reset_pointer_loc s2)
      | some ending =>
        match findCloseLvl ending (remaining s2) (get_pointer_loc s2) 1 with
        | none => (.error sourceEmpty, reset_pointer_loc s2)
        | some i =>
          (.ok (read_substr s2 (start_i + 1) (i - start_i - 1)), consume s2 (i + 1))

/-- `read_symbol` (parser_funcs.rs 344-361): skips whitespace and peeks one
character; a non-whitespace, non-ASCII-alphanumeric character is returned
after a `next` (which only advances the uncommitted lookahead); otherwise a
`Generic` mismatch error. -/
def read_symbol (s : StrParser) : ParseResult Char × StrParser :=
  let s1 := skip_whitespace s
  match peek s1 with
  | none => (.error sourceEmpty, s1)
  | some (_, c) =>
    if rustIsWhitespace c = false ∧ rustIsAsciiAlphanumeric c = false then
      (.ok c, advance s1 1)
    else
      (.error ⟨.generic, "\x27" ++ String.mk [c] ++ "\x27 is not classified as a symbol"⟩, s1)

/-- `parse_symbol` (parser_funcs.rs 336-342): requires a fresh cursor and
delegates to `read_symbol`. -/
def parse_symbol (s : StrParser) : ParseResult Char × StrParser :=
  if s.pointer ≠ 0 then (.error (misuseErr s.pointer), s)
  else read_symbol s

/-- `match_char` (parser_funcs.rs 363-381): requires a fresh cursor, skips
whitespace, peeks one character; on equality consumes through it and returns
true, otherwise returns false (with the whitespace skip left as lookahead);
at end of input errors `SourceEmpty`. -/
def match_char (val : Char) (s : StrParser) : ParseResult Bool × StrParser :=
  if s.pointer ≠ 0 then (.error (misuseErr s.pointer), s)
  else
    let s1 := skip_whitespace s
    match peek s1 with
    | none => (.error sourceEmpty, s1)
    | some (i, c) =>
      if c = val then (.ok true, consume s1 (i + 1))
      else (.ok false, s1)

/-- The comparison loop of `match_str` (parser_funcs.rs 401-421): `v` is the
literal character currently expected and `vs` the rest of the literal; on a
source character mismatch, roll back and return false; at end of input, roll
back and error `SourceEmpty`; when the literal is exhausted, commit through
the last matched character and return true. -/
def strLoop (v : Char) (vs : List Char) (s : StrParser) :
    ParseResult Bool × StrParser :=
  match next s with
  | (none, s1) => (.error sourceEmpty, reset_pointer_loc s1)
  | (some (i, c), s1) =>
    if c = v then
      match vs with
      | [] => (.ok true, consume s1 (i + 1))
      | v2 :: vs2 => strLoop v2 vs2 s1
    else (.ok false, reset_pointer_loc s1)

/-- `match_str` (parser_funcs.rs 388-422): requires a fresh cursor, skips
whitespace; an empty literal errors `SourceEmpty` (with the whitespace skip
left as lookahead), otherwise compares character by character. -/
def match_str (val : String) (s : StrParser) : ParseResult Bool × StrParser :=
  if s.pointer ≠ 0 then (.error (misuseErr s.pointer), s)
  else
    let s1 := skip_whitespace s
    match val.toList with
    | [] => (.error sourceEmpty, s1)
    | v :: vs => strLoop v vs s1

/-- `match_num` (parser_funcs.rs 383-386): formats the number with `Display`
and delegates to `match_str`.  The formatting itself is the external numeric
`Display` collaborator; the model takes the already-formatted string. -/
def match_num (formattedVal : String) (s : StrParser) : ParseResult Bool × StrParser :=
  match_str formattedVal s

/-- `consume_whitespace` (parser_funcs.rs 424-444): requires a fresh cursor
and scans the maximal whitespace run; when the scan stops at a non-whitespace
character the run is committed; when it stops at end of input the function
returns successfully without committing (the run stays as lookahead). -/
def consume_whitespace (s : StrParser) : ParseResult Unit × StrParser :=
  if s.pointer ≠ 0 then (.error (misuseErr s.pointer), s)
  else
    let s1 := advance s ((remaining s).takeWhile rustIsWhitespace).length
    match peek s1 with
    | none => (.ok (), s1)
    | some _ => (.ok (), consume s1 (get_pointer_loc s1))

/-- Modelled from the spec: the numeric-kind descriptor of spec section 9
standing for the closed `ParsableNums` trait set; `isFloat` is the
floating-point flag tested via `TypeId` in `parse_num`, and `fromStrOk` the
success predicate of the target type's own string-to-number conversion
(`str::parse::<N>`), to which all numeric semantics are delegated. -/
structure NumKind where
  isFloat : Bool
  fromStrOk : List Char → Bool

/-- Strip one leading `+`/`-` sign (the sign handling of Rust's float
`FromStr` grammar). -/
def stripSign (cs : List Char) : List Char :=
  match cs with
  | c :: r => if c = '+' ∨ c = '-' then r else cs
  | [] => cs

/-- A nonempty run of ASCII digits. -/
def digitsOne (cs : List Char) : Bool :=
  !cs.isEmpty && cs.all rustIsAsciiDigit

/-- The mantissa of the float grammar reproduced in the source's comment
(parser_funcs.rs 212-219): `Digit+ | Digit+ . Digit* | Digit* . Digit+`. -/
def mantissaOk (cs : List Char) : Bool :=
  let ip := cs.takeWhile rustIsAsciiDigit
  match cs.dropWhile rustIsAsciiDigit with
  | [] => !ip.isEmpty
  | c :: fr => c = '.' && fr.all rustIsAsciiDigit && (!ip.isEmpty || !fr.isEmpty)

/-- The exponent part `Sign? Digit+` of the float grammar (parser_funcs.rs
212-219), after the `e`/`E`. -/
def expOk (cs : List Char) : Bool :=
  digitsOne (stripSign cs)

/-- The `Number Exp?` production of the float grammar reproduced in the
source's comment (parser_funcs.rs 212-219). -/
def numberOk (cs : List Char) : Bool :=
  let m := cs.takeWhile (fun c => !(c = 'e' || c = 'E'))
  match cs.dropWhile (fun c => !(c = 'e' || c = 'E')) with
  | [] => mantissaOk m
  | _ :: r => mantissaOk m && expOk r

/-- Success predicate of Rust's `f32`/`f64` `FromStr` conversion, following
the grammar reproduced in the source's comment (parser_funcs.rs 211-219):
`Sign? (inf | infinity | nan | Number)` with the three literals matched
case-insensitively. -/
def floatFromStrOk (cs : List Char) : Bool :=
  let b := stripSign cs
  let u := b.map Char.toUpper
  u = "INF".toList || u = "INFINITY".toList || u = "NAN".toList || numberOk b

/-- The float target kinds (`f32`/`f64`) as a `NumKind`. -/
def floatKind : NumKind := ⟨true, floatFromStrOk⟩

/-- Length of the leading ASCII-digit run (the digit-skipping loops of
`parse_num`, parser_funcs.rs 270-277 etc.). -/
def digitRun (cs : List Char) : Nat :=
  (cs.takeWhile rustIsAsciiDigit).length

/-- The optional-dot step of `parse_num`'s float continuation
(parser_funcs.rs 280-285): advance past one `.` when it is next. -/
def dotStep (s : StrParser) : StrParser :=
  match peek s with
  | some (_, c) => if c = '.' then advance s 1 else s
  | none => s

/-- The optional-sign step of `parse_num`'s exponent handling
(parser_funcs.rs 304-309): advance past one `+`/`-` when it is next. -/
def signStep (s : StrParser) : StrParser :=
  match peek s with
  | some (_, c) => if c = '+' ∨ c = '-' then advance s 1 else s
  | none => s

/-- The float continuation of `parse_num` (parser_funcs.rs 278-319): an
optional `.` with a following digit run, then an optional `e`/`E` with an
optional sign and a digit run; pure lookahead advancing. -/
def floatTail (s : StrParser) : StrParser :=
  let sDot := dotStep s
  let sFrac := advance sDot (digitRun (remaining sDot))
  match peek sFrac with
  | some (_, c) =>
    if c = 'e' ∨ c = 'E' then
      let sE := advance sFrac 1
      let sSgn := signStep sE
      advance sSgn (digitRun (remaining sSgn))
    else sFrac
  | none => sFrac

/-- The plain-number completion of `parse_num` (parser_funcs.rs 269-333):
skip digits, for float kinds also the fraction/exponent tail, then hand the
accumulated span to the conversion; failure yields the `Generic`
"not a valid number" error after rollback, success commits the span. -/
def numTail (k : NumKind) (start_i : Nat) (s : StrParser) :
    ParseResult (List Char) × StrParser :=
  let sA := advance s (digitRun (remaining s))
  let sB := if k.isFloat then floatTail sA else sA
  let substr := read_substr sB start_i (get_pointer_loc sB - start_i)
  if k.fromStrOk substr then (.ok substr, consume sB (get_pointer_loc sB))
  else
    (.error ⟨.generic, "\x27" ++ String.mk substr ++ "\x27 is not a valid number"⟩,
      reset_pointer_loc sB)

/-- The shortcut completion of `parse_num` for a recognized `inf`, `infinity`
or `nan` word (parser_funcs.rs 253-268): hand the accumulated span to the
conversion; failure yields the `Generic` "not a valid float" error after
rollback, success commits the span. -/
def numShortcut (k : NumKind) (start_i : Nat) (s : StrParser) :
    ParseResult (List Char) × StrParser :=
  let substr := read_substr s start_i (get_pointer_loc s - start_i)
  if k.fromStrOk substr then (.ok substr, consume s (get_pointer_loc s))
  else
    (.error ⟨.generic, "\x27" ++ String.mk substr ++ "\x27 is not a valid float"⟩,
      reset_pointer_loc s)

/-- `parse_num` (parser_funcs.rs 202-334): requires a fresh cursor, skips
whitespace, skips an optional sign; for float kinds, a next character in
`i I n N` triggers reading a full word which, ASCII-uppercased, is compared
with `INF`/`INFINITY`/`NAN` - a match completes via the shortcut path, a
mismatch falls through (with the lookahead already past the word) to the
plain-number completion; either empty-input check errors `SourceEmpty`
without rollback. -/
def parse_num (k : NumKind) (s : StrParser) : ParseResult (List Char) × StrParser :=
  if s.pointer ≠ 0 then (.error (misuseErr s.pointer), s)
  else
    let s1 := skip_whitespace s
    let start_i := get_pointer_loc s1
    match peek s1 with
    | none => (.error sourceEmpty, s1)
    | some (_, c) =>
      let s2 := if c = '-' ∨ c = '+' then advance s1 1 else s1
      match peek s2 with
      | none => (.error sourceEmpty, s2)
      | some (_, c2) =>
        if k.isFloat = true ∧ (c2 = 'i' ∨ c2 = 'I' ∨ c2 = 'n' ∨ c2 = 'N') then
          match read_word s2 with
          | (.error _, s3) =>
            (.error ⟨.generic,
              "could not finish the infinity or not a number word after " ++ String.mk [c2]⟩, s3)
          | (.ok word, s3) =>
            let w := word.map Char.toUpper
            if w = "INF".toList ∨ w = "INFINITY".toList ∨ w = "NAN".toList then
              numShortcut k start_i s3
            else numTail k start_i s3
        else numTail k start_i s2

/-! ### Basic state and list lemmas -/

lemma advance_zero (s : StrParser) : advance s 0 = s := rfl

lemma remaining_advance (s : StrParser) (n : Nat) :
    remaining (advance s n) = (remaining s).drop n := by
  show s.input.drop (s.committed + (s.pointer + n)) =
    (s.input.drop (s.committed + s.pointer)).drop n
  rw [List.drop_drop]
  congr 1
  omega

lemma takeWhile_all_append {P : Char → Bool} (l r : List Char)
    (h : ∀ x ∈ l, P x = true) : (l ++ r).takeWhile P = l ++ r.takeWhile P := by
  induction l with
  | nil => simp
  | cons a t ih =>
    have ha := h a (List.mem_cons_self a t)
    have ih2 := ih fun x hx => h x (List.mem_cons_of_mem a hx)
    simp [List.takeWhile_cons, ha, ih2]

lemma takeWhile_all {P : Char → Bool} (l : List Char)
    (h : ∀ x ∈ l, P x = true) : l.takeWhile P = l := by
  have h2 := takeWhile_all_append l [] h
  simpa using h2

lemma takeWhile_head_false {P : Char → Bool} {c : Char} (r : List Char)
    (h : P c = false) : (c :: r).takeWhile P = [] := by
  simp [List.takeWhile_cons, h]

lemma not_ws_of_alnum {c : Char} (h : rustIsAlphanumeric c = true) :
    rustIsWhitespace c = false := by
  simp only [rustIsAlphanumeric, rustIsAsciiAlphanumeric, Bool.or_eq_true,
    decide_eq_true_eq] at h
  simp only [rustIsWhitespace, decide_eq_false_iff_not]
  omega

lemma not_digit_of_not_alnum {c : Char} (h : rustIsAlphanumeric c = false) :
    rustIsAsciiDigit c = false := by
  simp only [rustIsAlphanumeric, rustIsAsciiAlphanumeric, Bool.or_eq_false_iff,
    decide_eq_false_iff_not] at h
  simp only [rustIsAsciiDigit, decide_eq_false_iff_not]
  omega

/-! ### Claim theorems: concrete behaviour of the primitives -/

/-- C2 is a code bug: on success `parse_symbol` (via `read_symbol`) only
advances the uncommitted lookahead past the returned symbol and never calls
`consume`, so the committed position advances by 0 instead of 1; the crate's
own test (`parser_funcs.rs` 478-480) then calls `parse_word` on the same
cursor, which fails the fresh-cursor check. -/
theorem parse_symbol_never_commits :
    parse_symbol (StrParser.new ".") = (.ok '.', ⟨['.'], 0, 1⟩) ∧
    (parse_word ((parse_symbol (StrParser.new ". And")).2)).1 =
      .error (misuseErr 1) := by
  exact ⟨rfl, rfl⟩

/-- C3 is a code bug: on an input whose first non-whitespace character is not
a quote, `parse_string` delegates to `parse_word` only after its own `next`
has already advanced the lookahead past that character, so `parse_word`'s
fresh-cursor check always fails: instead of returning the bare word (as the
trait documentation and the spec promise), `parse_string` returns the
`Generic` cursor-misuse error and leaves one character of lookahead pending. -/
theorem parse_string_unquoted_always_fails :
    (parse_string (StrParser.new "abc")).1 = .error (misuseErr 1) ∧
    ((parse_string (StrParser.new "abc")).2).pointer = 1 ∧
    (parse_word (StrParser.new "abc")).1 = .ok "abc".toList := by
  exact ⟨rfl, rfl, rfl⟩

/-- C9: `read_symbol`/`parse_symbol` classify with `is_ascii_alphanumeric`
while `read_word` classifies with the Unicode `is_alphanumeric`, so a
non-ASCII alphanumeric character is accepted and returned as a symbol by
`read_symbol` and `parse_symbol` even though `read_word` treats the same
character as a word constituent. -/
theorem symbol_ascii_word_unicode (c : Char)
    (h1 : rustIsAlphanumeric c = true) (h2 : rustIsAsciiAlphanumeric c = false) :
    read_symbol ⟨[c], 0, 0⟩ = (.ok c, ⟨[c], 0, 1⟩) ∧
    parse_symbol ⟨[c], 0, 0⟩ = (.ok c, ⟨[c], 0, 1⟩) ∧
    read_word ⟨[c], 0, 0⟩ = (.ok [c], ⟨[c], 0, 1⟩) := by
  have hws := not_ws_of_alnum h1
  have hsym : read_symbol ⟨[c], 0, 0⟩ = (.ok c, ⟨[c], 0, 1⟩) := by
    simp [read_symbol, skip_whitespace, remaining, peek, advance,
      takeWhile_head_false ([] : List Char) hws, hws, h2]
  refine ⟨hsym, ?_, ?_⟩
  · simp [parse_symbol, hsym]
  · simp [read_word, skip_whitespace, remaining, peek, advance, get_pointer_loc,
      read_substr, takeWhile_head_false ([] : List Char) hws,
      List.takeWhile_cons, h1]

/-- Witness for C9 at the concrete non-ASCII alphanumeric characters `é`
(U+00E9, a Latin-1 letter) and `②` (U+2461, a Unicode numeric character). -/
theorem symbol_ascii_word_unicode_witness :
    read_symbol ⟨['é'], 0, 0⟩ = (.ok 'é', ⟨['é'], 0, 1⟩) ∧
    read_word ⟨['②'], 0, 0⟩ = (.ok ['②'], ⟨['②'], 0, 1⟩) := by
  exact ⟨(symbol_ascii_word_unicode 'é' (by decide) (by decide)).1,
    (symbol_ascii_word_unicode '②' (by decide) (by decide)).2.2⟩

/-- C10: on an input consisting only of whitespace (including the empty
input), `match_char` skips the whitespace, finds the source exhausted, and
returns the `Empty` (source-exhausted) error for every argument, rather than
returning false. -/
theorem match_char_all_whitespace_empty_error (val : Char) (ws : List Char)
    (h : ∀ x ∈ ws, rustIsWhitespace x = true) :
    (match_char val ⟨ws, 0, 0⟩).1 = .error sourceEmpty := by
  simp [match_char, skip_whitespace, remaining, peek, advance,
    takeWhile_all ws h, List.drop_length]

/-- Witness for C10 at the one-space input and at the empty input. -/
theorem match_char_all_whitespace_empty_error_witness :
    (match_char 'x' ⟨[' '], 0, 0⟩).1 = .error sourceEmpty ∧
    (match_char 'q' ⟨[], 0, 0⟩).1 = .error sourceEmpty := by
  exact ⟨match_char_all_whitespace_empty_error 'x' [' '] (by decide),
    match_char_all_whitespace_empty_error 'q' [] (by decide)⟩

/-- C6 counterexample: with leading whitespace before the mismatching
character, `match_char` returns false but does not leave the cursor
unchanged - the skipped whitespace stays as uncommitted lookahead. -/
theorem match_char_mismatch_cursor_changed :
    (match_char 'a' (StrParser.new " b")).1 = .ok false ∧
    ((match_char 'a' (StrParser.new " b")).2).pointer = 1 ∧
    (StrParser.new " b").pointer = 0 := by
  exact ⟨rfl, rfl, rfl⟩

/-- C6 (amended): when the first non-whitespace character differs from `val`,
`match_char` returns false without error and never advances the committed
position, but the skipped leading whitespace is left as uncommitted lookahead
(so the cursor is fully unchanged exactly when the input starts with no
whitespace). -/
theorem match_char_mismatch_keeps_committed (val c : Char) (ws rest : List Char)
    (hws : ∀ x ∈ ws, rustIsWhitespace x = true)
    (hc : rustIsWhitespace c = false) (hne : c ≠ val) :
    match_char val ⟨ws ++ c :: rest, 0, 0⟩ =
      (.ok false, ⟨ws ++ c :: rest, 0, ws.length⟩) := by
  simp [match_char, skip_whitespace, remaining, peek, advance, get_pointer_loc,
    takeWhile_all_append ws (c :: rest) hws, takeWhile_head_false rest hc,
    List.drop_left, hne]

/-- Witness for the amended C6: one tab of whitespace, then `q` against
literal `z`. -/
theorem match_char_mismatch_keeps_committed_witness :
    match_char 'z' ⟨['\t', 'q'], 0, 0⟩ = (.ok false, ⟨['\t', 'q'], 0, 1⟩) := by
  have h := match_char_mismatch_keeps_committed 'z' 'q' ['\t'] []
    (by decide) (by decide) (by decide)
  simpa using h

/-- C7 counterexample: when the whitespace run extends to the end of the
input, `consume_whitespace` returns success but commits nothing, leaving the
run as uncommitted lookahead. -/
theorem consume_whitespace_eof_uncommitted :
    (consume_whitespace (StrParser.new " ")).1 = .ok () ∧
    ((consume_whitespace (StrParser.new " ")).2).committed = 0 ∧
    ((consume_whitespace (StrParser.new " ")).2).pointer = 1 := by
  exact ⟨rfl, rfl, rfl⟩

/-- C7 (amended): `consume_whitespace` scans the maximal leading whitespace
run and commits it when the scan stops at a non-whitespace character; when
the run extends to the end of the input it returns success without
committing, leaving the run as uncommitted lookahead. -/
theorem consume_whitespace_commit_behaviour (ws rest : List Char) (c : Char)
    (hws : ∀ x ∈ ws, rustIsWhitespace x = true) (hc : rustIsWhitespace c = false) :
    consume_whitespace ⟨ws ++ c :: rest, 0, 0⟩ =
      (.ok (), ⟨ws ++ c :: rest, ws.length, 0⟩) ∧
    consume_whitespace ⟨ws, 0, 0⟩ = (.ok (), ⟨ws, 0, ws.length⟩) := by
  constructor
  · simp [consume_whitespace, remaining, peek, advance, consume, get_pointer_loc,
      takeWhile_all_append ws (c :: rest) hws, takeWhile_head_false rest hc,
      List.drop_left]
  · simp [consume_whitespace, remaining, peek, advance,
      takeWhile_all ws hws, List.drop_length]

/-- Witness for the amended C7: two spaces before `x` are committed; a lone
space before end of input is scanned but left uncommitted. -/
theorem consume_whitespace_commit_behaviour_witness :
    consume_whitespace ⟨[' ', ' ', 'x'], 0, 0⟩ = (.ok (), ⟨[' ', ' ', 'x'], 2, 0⟩) ∧
    consume_whitespace ⟨[' '], 0, 0⟩ = (.ok (), ⟨[' '], 0, 1⟩) := by
  constructor
  · have h := (consume_whitespace_commit_behaviour [' ', ' '] [] 'x'
      (by decide) (by decide)).1
    simpa using h
  · have h := (consume_whitespace_commit_behaviour [' '] [] 'x'
      (by decide) (by decide)).2
    simpa using h

/-- C1 counterexample: `read_symbol` on a one-space input returns an error
yet leaves the whitespace skip pending - the lookahead offset is 1 where the
entry offset was 0, so the cursor is not fully restored on failure. -/
theorem read_symbol_error_keeps_lookahead :
    (read_symbol (StrParser.new " ")).1 = .error sourceEmpty ∧
    ((read_symbol (StrParser.new " ")).2).pointer = 1 ∧
    (StrParser.new " ").pointer = 0 := by
  exact ⟨rfl, rfl, rfl⟩

/-- C5 counterexample: for a float target, the word `nope` (starting with
`n`, not matching INF/INFINITY/NAN) makes `parse_num` fail with the
fall-through message "... is not a valid number", not the claimed
"... is not a valid float". -/
theorem parse_num_float_badword_message :
    (parse_num floatKind (StrParser.new "nope")).1 =
      .error ⟨.generic, "\x27nope\x27 is not a valid number"⟩ ∧
    ("\x27nope\x27 is not a valid number" : String) ≠
      "\x27nope\x27 is not a valid float" := by
  exact ⟨rfl, by decide⟩

/-! ### Committed-position preservation on error -/

lemma next_snd_committed (s : StrParser) : ((next s).2).committed = s.committed := by
  simp only [next]
  split <;> rfl

lemma next_snd_input (s : StrParser) : ((next s).2).input = s.input := by
  simp only [next]
  split <;> rfl

lemma reset_of_next (s0 s2 : StrParser) (o : Option (Nat × Char))
    (heq : next s0 = (o, s2)) :
    reset_pointer_loc s2 = reset_pointer_loc s0 := by
  have hi := next_snd_input s0
  have hc := next_snd_committed s0
  rw [heq] at hi hc
  show (⟨s2.input, s2.committed, 0⟩ : StrParser) = ⟨s0.input, s0.committed, 0⟩
  rw [hi, hc]

lemma read_word_committed (s : StrParser) :
    ((read_word s).2).committed = s.committed := by
  simp only [read_word]
  split
  · split <;> rfl
  · rfl

lemma read_symbol_committed (s : StrParser) :
    ((read_symbol s).2).committed = s.committed := by
  simp only [read_symbol]
  split
  · rfl
  · split <;> rfl

lemma parse_word_err_committed (s : StrParser) (e : ParseError) :
    (parse_word s).1 = .error e → ((parse_word s).2).committed = s.committed := by
  simp only [parse_word]
  split
  · intro _; rfl
  · split
    · rename_i a b heq
      intro _
      have h2 := read_word_committed s
      rw [heq] at h2
      exact h2
    · intro h; exact Except.noConfusion h

lemma stringLoop_err_committed (ending : Char) (start_i : Nat) (s : StrParser)
    (e : ParseError) :
    (stringLoop ending start_i s).1 = .error e →
      ((stringLoop ending start_i s).2).committed = s.committed := by
  simp only [stringLoop]
  split
  · intro _; rfl
  · split
    · intro h; exact Except.noConfusion h
    · intro h; exact Except.noConfusion h

lemma parse_string_err_committed (s : StrParser) (e : ParseError) :
    (parse_string s).1 = .error e → ((parse_string s).2).committed = s.committed := by
  simp only [parse_string]
  split
  · intro _; rfl
  · split
    · rename_i s2 heq
      intro _
      have h2 := next_snd_committed (skip_whitespace s)
      rw [heq] at h2
      exact h2
    · rename_i i c s2 heq
      have h3 := next_snd_committed (skip_whitespace s)
      rw [heq] at h3
      split
      · intro h
        exact (stringLoop_err_committed _ _ s2 e h).trans h3
      · split
        · intro h
          exact (stringLoop_err_committed _ _ s2 e h).trans h3
        · intro h
          exact (parse_word_err_committed s2 e h).trans h3

lemma parse_brackets_err_committed (s : StrParser) (e : ParseError) :
    (parse_brackets s).1 = .error e → ((parse_brackets s).2).committed = s.committed := by
  simp only [parse_brackets]
  split
  · intro _; rfl
  · split
    · rename_i s2 heq
      intro _
      have h2 := next_snd_committed (skip_whitespace s)
      rw [heq] at h2
      exact h2
    · rename_i i c s2 heq
      have h3 := next_snd_committed (skip_whitespace s)
      rw [heq] at h3
      split
      · intro _; exact h3
      · split
        · intro _; exact h3
        · intro h; exact Except.noConfusion h

lemma parse_symbol_err_committed (s : StrParser) (e : ParseError) :
    (parse_symbol s).1 = .error e → ((parse_symbol s).2).committed = s.committed := by
  simp only [parse_symbol]
  split
  · intro _; rfl
  · intro _; exact read_symbol_committed s

lemma match_char_err_committed (val : Char) (s : StrParser) (e : ParseError) :
    (match_char val s).1 = .error e → ((match_char val s).2).committed = s.committed := by
  simp only [match_char]
  split
  · intro _; rfl
  · split
    · intro _; rfl
    · split
      · intro h; exact Except.noConfusion h
      · intro h; exact Except.noConfusion h

lemma strLoop_err_committed : ∀ (vs : List Char) (v : Char) (s : StrParser)
    (e : ParseError), (strLoop v vs s).1 = .error e →
      ((strLoop v vs s).2).committed = s.committed := by
  intro vs
  induction vs with
  | nil =>
    intro v s e
    simp only [strLoop]
    split
    · rename_i s1 heq
      intro _
      have h2 := next_snd_committed s
      rw [heq] at h2
      exact h2
    · split
      · intro h; exact Except.noConfusion h
      · intro h; exact Except.noConfusion h
  | cons v2 vs2 ih =>
    intro v s e
    rw [strLoop]
    split
    · rename_i s1 heq
      intro _
      have h2 := next_snd_committed s
      rw [heq] at h2
      exact h2
    · rename_i i c s1 heq
      have h3 := next_snd_committed s
      rw [heq] at h3
      split
      · intro h
        exact (ih v2 s1 e h).trans h3
      · intro h; exact Except.noConfusion h

lemma match_str_err_committed (val : String) (s : StrParser) (e : ParseError) :
    (match_str val s).1 = .error e → ((match_str val s).2).committed = s.committed := by
  simp only [match_str]
  split
  · intro _; rfl
  · split
    · intro _; rfl
    · intro h
      exact strLoop_err_committed _ _ _ e h

lemma match_num_err_committed (fmtv : String) (s : StrParser) (e : ParseError) :
    (match_num fmtv s).1 = .error e → ((match_num fmtv s).2).committed = s.committed :=
  match_str_err_committed fmtv s e

lemma advance_committed (s : StrParser) (n : Nat) :
    (advance s n).committed = s.committed := rfl

lemma dotStep_committed (s : StrParser) : (dotStep s).committed = s.committed := by
  simp only [dotStep]
  split
  · split <;> rfl
  · rfl

lemma signStep_committed (s : StrParser) : (signStep s).committed = s.committed := by
  simp only [signStep]
  split
  · split <;> rfl
  · rfl

lemma floatTail_committed (s : StrParser) : (floatTail s).committed = s.committed := by
  simp only [floatTail]
  split
  · split
    · simp [advance_committed, signStep_committed, dotStep_committed]
    · simp [advance_committed, dotStep_committed]
  · simp [advance_committed, dotStep_committed]

lemma numTail_err_committed (k : NumKind) (i : Nat) (s : StrParser) (e : ParseError) :
    (numTail k i s).1 = .error e → ((numTail k i s).2).committed = s.committed := by
  simp only [numTail]
  split
  · split
    · intro h; exact Except.noConfusion h
    · intro _; exact floatTail_committed _
  · split
    · intro h; exact Except.noConfusion h
    · intro _; rfl

lemma numShortcut_err_committed (k : NumKind) (i : Nat) (s : StrParser) (e : ParseError) :
    (numShortcut k i s).1 = .error e → ((numShortcut k i s).2).committed = s.committed := by
  simp only [numShortcut]
  split
  · intro h; exact Except.noConfusion h
  · intro _; rfl

lemma parse_num_err_committed (k : NumKind) (s : StrParser) (e : ParseError) :
    (parse_num k s).1 = .error e → ((parse_num k s).2).committed = s.committed := by
  simp only [parse_num]
  split
  · intro _; rfl
  · split
    · intro _; rfl
    · rename_i i0 c heq0
      rcases Decidable.em (c = '-' ∨ c = '+') with hc2 | hc2
      · simp only [if_pos hc2]
        split
        · intro _; rfl
        · split
          · split
            · rename_i a s3 heq
              intro _
              have h2 := read_word_committed (advance (skip_whitespace s) 1)
              rw [heq] at h2
              exact h2
            · rename_i w s3 heq
              have h3 := read_word_committed (advance (skip_whitespace s) 1)
              rw [heq] at h3
              split
              · intro h
                exact (numShortcut_err_committed k _ s3 e h).trans h3
              · intro h
                exact (numTail_err_committed k _ s3 e h).trans h3
          · intro h
            exact numTail_err_committed k _ _ e h
      · simp only [if_neg hc2]
        split
        · intro _; rfl
        · split
          · split
            · rename_i a s3 heq
              intro _
              have h2 := read_word_committed (skip_whitespace s)
              rw [heq] at h2
              exact h2
            · rename_i w s3 heq
              have h3 := read_word_committed (skip_whitespace s)
              rw [heq] at h3
              split
              · intro h
                exact (numShortcut_err_committed k _ s3 e h).trans h3
              · intro h
                exact (numTail_err_committed k _ s3 e h).trans h3
          · intro h
            exact numTail_err_committed k _ _ e h

lemma consume_whitespace_err_committed (s : StrParser) (e : ParseError) :
    (consume_whitespace s).1 = .error e →
      ((consume_whitespace s).2).committed = s.committed := by
  simp only [consume_whitespace]
  split
  · intro _; rfl
  · split
    · intro h; exact Except.noConfusion h
    · intro h; exact Except.noConfusion h

/-- C8: for every cursor state, every numeric kind and every literal, a
lexical primitive that returns an error never advances the cursor's committed
position (no error path of any primitive ever calls `consume`). -/
theorem committed_never_advances_on_error (s : StrParser) (k : NumKind)
    (val : Char) (lit fmtv : String) :
    (∀ e, (read_word s).1 = .error e → ((read_word s).2).committed = s.committed) ∧
    (∀ e, (parse_word s).1 = .error e → ((parse_word s).2).committed = s.committed) ∧
    (∀ e, (parse_string s).1 = .error e → ((parse_string s).2).committed = s.committed) ∧
    (∀ e, (parse_brackets s).1 = .error e → ((parse_brackets s).2).committed = s.committed) ∧
    (∀ e, (parse_num k s).1 = .error e → ((parse_num k s).2).committed = s.committed) ∧
    (∀ e, (parse_symbol s).1 = .error e → ((parse_symbol s).2).committed = s.committed) ∧
    (∀ e, (read_symbol s).1 = .error e → ((read_symbol s).2).committed = s.committed) ∧
    (∀ e, (match_char val s).1 = .error e → ((match_char val s).2).committed = s.committed) ∧
    (∀ e, (match_str lit s).1 = .error e → ((match_str lit s).2).committed = s.committed) ∧
    (∀ e, (match_num fmtv s).1 = .error e → ((match_num fmtv s).2).committed = s.committed) ∧
    (∀ e, (consume_whitespace s).1 = .error e → ((consume_whitespace s).2).committed = s.committed) := by
  exact ⟨fun e _ => read_word_committed s,
    fun e h => parse_word_err_committed s e h,
    fun e h => parse_string_err_committed s e h,
    fun e h => parse_brackets_err_committed s e h,
    fun e h => parse_num_err_committed k s e h,
    fun e h => parse_symbol_err_committed s e h,
    fun e _ => read_symbol_committed s,
    fun e h => match_char_err_committed val s e h,
    fun e h => match_str_err_committed lit s e h,
    fun e h => match_num_err_committed fmtv s e h,
    fun e h => consume_whitespace_err_committed s e h⟩

/-- Witness for C8: `match_char` on an all-whitespace input errors and the
committed position is preserved. -/
theorem committed_never_advances_on_error_witness :
    ((match_char 'q' (StrParser.new " ")).2).committed =
      (StrParser.new " ").committed :=
  (committed_never_advances_on_error (StrParser.new " ") floatKind 'q' "ab"
    "7").2.2.2.2.2.2.2.1 sourceEmpty rfl

/-! ### Full rollback on error for the word and bracket primitives -/

lemma read_word_err_state (inp : List Char) (com : Nat) (e : ParseError) :
    (read_word ⟨inp, com, 0⟩).1 = .error e →
      (read_word ⟨inp, com, 0⟩).2 = ⟨inp, com, 0⟩ := by
  simp only [read_word]
  split
  · split
    · intro _; rfl
    · intro h; exact Except.noConfusion h
  · intro h; exact Except.noConfusion h

lemma parse_word_err_state (inp : List Char) (com : Nat) (e : ParseError) :
    (parse_word ⟨inp, com, 0⟩).1 = .error e →
      (parse_word ⟨inp, com, 0⟩).2 = ⟨inp, com, 0⟩ := by
  simp only [parse_word]
  split
  · intro _; rfl
  · split
    · rename_i a b heq
      intro _
      have h1 : (read_word ⟨inp, com, 0⟩).1 = .error a := by rw [heq]
      have h2 := read_word_err_state inp com a h1
      rw [heq] at h2
      exact h2
    · intro h; exact Except.noConfusion h

lemma parse_brackets_err_state (inp : List Char) (com : Nat) (e : ParseError) :
    (parse_brackets ⟨inp, com, 0⟩).1 = .error e →
      (parse_brackets ⟨inp, com, 0⟩).2 = ⟨inp, com, 0⟩ := by
  simp only [parse_brackets]
  split
  · intro _; rfl
  · split
    · rename_i s2 heq
      intro _
      rw [reset_of_next _ _ _ heq]
      rfl
    · rename_i i c s2 heq
      split
      · intro _
        rw [reset_of_next _ _ _ heq]
        rfl
      · split
        · intro _
          rw [reset_of_next _ _ _ heq]
          rfl
        · intro h; exact Except.noConfusion h

/-- C1 (amended): a lexical primitive that fails never advances the committed
position, and `read_word`, `parse_word` and `parse_brackets` additionally
restore the whole cursor (including the lookahead offset) on failure; the
remaining primitives can leave uncommitted lookahead pending on failure (the
whitespace skip, and for `parse_string`'s unquoted delegation one further
character), as the counterexample shows. -/
theorem error_rollback_amended (s : StrParser) (k : NumKind) (val : Char)
    (lit fmtv : String) (hs : s.pointer = 0) :
    (∀ e, (read_word s).1 = .error e → (read_word s).2 = s) ∧
    (∀ e, (parse_word s).1 = .error e → (parse_word s).2 = s) ∧
    (∀ e, (parse_brackets s).1 = .error e → (parse_brackets s).2 = s) ∧
    (∀ e, (parse_string s).1 = .error e → ((parse_string s).2).committed = s.committed) ∧
    (∀ e, (parse_num k s).1 = .error e → ((parse_num k s).2).committed = s.committed) ∧
    (∀ e, (parse_symbol s).1 = .error e → ((parse_symbol s).2).committed = s.committed) ∧
    (∀ e, (read_symbol s).1 = .error e → ((read_symbol s).2).committed = s.committed) ∧
    (∀ e, (match_char val s).1 = .error e → ((match_char val s).2).committed = s.committed) ∧
    (∀ e, (match_str lit s).1 = .error e → ((match_str lit s).2).committed = s.committed) ∧
    (∀ e, (match_num fmtv s).1 = .error e → ((match_num fmtv s).2).committed = s.committed) := by
  obtain ⟨inp, com, p⟩ := s
  have hp : p = 0 := hs
  subst hp
  exact ⟨fun e h => read_word_err_state inp com e h,
    fun e h => parse_word_err_state inp com e h,
    fun e h => parse_brackets_err_state inp com e h,
    fun e h => parse_string_err_committed _ e h,
    fun e h => parse_num_err_committed k _ e h,
    fun e h => parse_symbol_err_committed _ e h,
    fun e _ => read_symbol_committed _,
    fun e h => match_char_err_committed val _ e h,
    fun e h => match_str_err_committed lit _ e h,
    fun e h => match_num_err_committed fmtv _ e h⟩

/-- Witness for the amended C1: `read_word` on the empty input fails and the
cursor is fully restored. -/
theorem error_rollback_amended_witness :
    (read_word (StrParser.new "")).2 = StrParser.new "" :=
  (error_rollback_amended (StrParser.new "") floatKind 'a' "q" "7" rfl).1
    ⟨.empty, "could not parse word as there are none left in the source"⟩ rfl

/-! ### First-close-wins behaviour of parse_brackets -/

lemma peek_eq_none (s : StrParser) (h : remaining s = []) : peek s = none := by
  simp [peek, h]

lemma peek_eq_some (s : StrParser) (r : Char) (rs : List Char)
    (h : remaining s = r :: rs) : peek s = some (s.pointer, r) := by
  simp [peek, h]

lemma bracketClose_not_ws (o e : Char) (h : bracketClose o = some e) :
    rustIsWhitespace o = false := by
  unfold bracketClose at h
  split_ifs at h with h1 h2 h3 h4
  · subst h1; decide
  · subst h2; decide
  · subst h3; decide
  · subst h4; decide

lemma findCloseLvl_first (e : Char) (post : List Char) :
    ∀ (mid : List Char) (i : Nat), e ∉ mid →
      findCloseLvl e (mid ++ e :: post) i 1 = some (i + mid.length) := by
  intro mid
  induction mid with
  | nil => intro i _; simp [findCloseLvl]
  | cons m t ih =>
    intro i h
    have hm : ¬(m = e) := fun hh => h (by simp [hh])
    have ht : e ∉ t := fun hh => h (List.mem_cons_of_mem m hh)
    have harith : i + 1 + t.length = i + (m :: t).length := by
      simp only [List.length_cons]; omega
    simp only [List.cons_append, findCloseLvl, if_neg hm]
    show findCloseLvl e (t ++ e :: post) (i + 1) 1 = some (i + (m :: t).length)
    rw [ih (i + 1) ht, harith]

/-- C4: `parse_brackets` never increments its nesting level (the level starts
at 1 and `findCloseLvl` only decrements on the closing character), so on a
fresh cursor it terminates at the first occurrence of the closing character:
for any opening bracket and any `mid` that does not contain the closing
character, the returned span is exactly `mid`, whatever nested openers it
contains, and the closing character found is the first one. -/
theorem parse_brackets_first_close (o e : Char) (mid post : List Char)
    (hoe : bracketClose o = some e) (hmid : e ∉ mid) :
    parse_brackets ⟨o :: (mid ++ e :: post), 0, 0⟩ =
      (.ok mid, ⟨o :: (mid ++ e :: post), mid.length + 2, 0⟩) := by
  have hws := bracketClose_not_ws o e hoe
  simp [parse_brackets, skip_whitespace, remaining, get_pointer_loc, advance, peek,
    next, read_substr, consume, takeWhile_head_false (mid ++ e :: post) hws, hoe,
    findCloseLvl_first e post mid 1 hmid, List.take_left, Prod.ext_iff,
    StrParser.mk.injEq]
  omega

/-- Witness for C4: the spec's own example `(a(b)c)` returns the span `a(b`
ending at the first `)` and commits through it. -/
theorem parse_brackets_first_close_witness :
    parse_brackets ⟨'(' :: ("a(b".toList ++ ')' :: "c)".toList), 0, 0⟩ =
      (.ok "a(b".toList,
        ⟨'(' :: ("a(b".toList ++ ')' :: "c)".toList), "a(b".toList.length + 2, 0⟩) :=
  parse_brackets_first_close '(' ')' "a(b".toList "c)".toList rfl (by decide)

/-! ### The float-word fall-through of parse_num -/

lemma take_len_cons_append (a : Char) (t r : List Char) :
    ((a :: t) ++ r).take (t.length + 1) = a :: t := by
  have h2 := List.take_left (a :: t) r
  simpa using h2

lemma alnum_of_digit {c : Char} (h : rustIsAsciiDigit c = true) :
    rustIsAlphanumeric c = true := by
  simp only [rustIsAsciiDigit, decide_eq_true_eq] at h
  simp only [rustIsAlphanumeric, rustIsAsciiAlphanumeric, Bool.or_eq_true,
    decide_eq_true_eq]
  omega

lemma read_word_of_run (s : StrParser) (a : Char) (t rest : List Char)
    (hrem : remaining s = (a :: t) ++ rest)
    (hall : ∀ x ∈ a :: t, rustIsAlphanumeric x = true)
    (hrest : ∀ r rs, rest = r :: rs → rustIsAlphanumeric r = false) :
    read_word s = (.ok (a :: t), advance s (t.length + 1)) := by
  have ha := hall a (List.mem_cons_self a t)
  have haws := not_ws_of_alnum ha
  have hrem' : s.input.drop (s.committed + s.pointer) = (a :: t) ++ rest := hrem
  have htw : (remaining s).takeWhile rustIsWhitespace = [] := by
    rw [hrem]
    exact takeWhile_head_false _ haws
  have hskip : skip_whitespace s = s := by
    rw [skip_whitespace, htw]
    rfl
  have htwa : (remaining s).takeWhile rustIsAlphanumeric = a :: t := by
    rw [hrem, takeWhile_all_append (a :: t) rest hall]
    cases rest with
    | nil => simp
    | cons r rs =>
      rw [takeWhile_head_false rs (hrest r rs rfl)]
      simp
  have hrem2 : remaining (advance s (t.length + 1)) = rest := by
    rw [remaining_advance, hrem]
    have h2 := List.drop_left (a :: t) rest
    simpa using h2
  have hsub : (s.input.drop (s.committed + s.pointer)).take (t.length + 1) = a :: t := by
    rw [hrem']
    exact take_len_cons_append a t rest
  simp only [read_word, hskip, htwa, List.length_cons]
  cases rest with
  | nil =>
    simp only [peek_eq_none _ hrem2]
    rw [if_neg (by simp only [get_pointer_loc, advance]; omega)]
    simp only [read_substr, get_pointer_loc, advance, Nat.add_sub_cancel_left, hsub]
  | cons r rs =>
    simp only [peek_eq_some _ r rs hrem2]
    simp only [read_substr, get_pointer_loc, advance, Nat.add_sub_cancel_left, hsub]

lemma mantissaOk_head_false (c : Char) (t : List Char)
    (h1 : rustIsAsciiDigit c = false) (h2 : c ≠ '.') :
    mantissaOk (c :: t) = false := by
  simp [mantissaOk, List.takeWhile_cons, List.dropWhile_cons, h1, h2]

lemma numberOk_letter_false (c : Char) (t : List Char)
    (h1 : rustIsAsciiDigit c = false) (h2 : c ≠ '.')
    (h3 : c ≠ 'e') (h4 : c ≠ 'E') :
    numberOk (c :: t) = false := by
  simp only [numberOk, List.takeWhile_cons, List.dropWhile_cons, h3, h4]
  cases hdw : t.dropWhile (fun x => !(x = 'e' || x = 'E')) with
  | nil => simp [mantissaOk_head_false c _ h1 h2]
  | cons x r => simp [mantissaOk_head_false c _ h1 h2]

lemma stripSign_letter (c : Char) (w sgn : List Char)
    (hsgn : sgn = [] ∨ sgn = ['+'] ∨ sgn = ['-'])
    (hc : ¬(c = '+' ∨ c = '-')) :
    stripSign (sgn ++ c :: w) = c :: w := by
  rcases hsgn with h | h | h <;> subst h
  · simp [stripSign, hc]
  · simp [stripSign]
  · simp [stripSign]

lemma floatFromStrOk_letterword (c : Char) (w sgn : List Char)
    (hsgn : sgn = [] ∨ sgn = ['+'] ∨ sgn = ['-'])
    (hc : c = 'i' ∨ c = 'I' ∨ c = 'n' ∨ c = 'N')
    (hlit : ¬((c :: w).map Char.toUpper = "INF".toList ∨
      (c :: w).map Char.toUpper = "INFINITY".toList ∨
      (c :: w).map Char.toUpper = "NAN".toList)) :
    floatFromStrOk (sgn ++ c :: w) = false := by
  have hpm : ¬(c = '+' ∨ c = '-') := by
    rcases hc with h | h | h | h <;> subst h <;> decide
  have hstrip := stripSign_letter c w sgn hsgn hpm
  have hd : rustIsAsciiDigit c = false := by
    rcases hc with h | h | h | h <;> subst h <;> decide
  have hdot : c ≠ '.' := by
    rcases hc with h | h | h | h <;> subst h <;> decide
  have he : c ≠ 'e' := by
    rcases hc with h | h | h | h <;> subst h <;> decide
  have hE : c ≠ 'E' := by
    rcases hc with h | h | h | h <;> subst h <;> decide
  push_neg at hlit
  simp only [floatFromStrOk, hstrip, numberOk_letter_false c w hd hdot he hE,
    Bool.or_false]
  simp [hlit.1, hlit.2.1, hlit.2.2]
  refine ⟨⟨?_, ?_⟩, ?_⟩
  · intro h1 h2
    exact hlit.1 (by rw [List.map_cons, h1, h2]; decide)
  · intro h1 h2
    exact hlit.2.1 (by rw [List.map_cons, h1, h2]; decide)
  · intro h1 h2
    exact hlit.2.2 (by rw [List.map_cons, h1, h2]; decide)

lemma numTail_stuck (s : StrParser) (start_i : Nat)
    (h : ∀ r rs, remaining s = r :: rs →
      rustIsAsciiDigit r = false ∧ r ≠ '.' ∧ r ≠ 'e' ∧ r ≠ 'E') :
    numTail floatKind start_i s =
      (if floatFromStrOk (read_substr s start_i (s.pointer - start_i)) = true
       then (.ok (read_substr s start_i (s.pointer - start_i)), consume s s.pointer)
       else (.error ⟨.generic, "\x27" ++ String.mk (read_substr s start_i (s.pointer - start_i))
         ++ "\x27 is not a valid number"⟩, reset_pointer_loc s)) := by
  have hdr : digitRun (remaining s) = 0 := by
    cases hrm : remaining s with
    | nil => simp [digitRun, hrm]
    | cons r rs => simp [digitRun, hrm, takeWhile_head_false rs (h r rs hrm).1]
  have hdot2 : dotStep s = s := by
    cases hrm : remaining s with
    | nil => simp [dotStep, peek_eq_none s hrm]
    | cons r rs => simp [dotStep, peek_eq_some s r rs hrm, (h r rs hrm).2.1]
  have hft : floatTail s = s := by
    simp only [floatTail, hdot2, hdr, advance_zero]
    cases hrm : remaining s with
    | nil => simp [peek_eq_none s hrm]
    | cons r rs =>
      simp [peek_eq_some s r rs hrm, (h r rs hrm).2.2.1, (h r rs hrm).2.2.2]
  simp only [numTail, hdr, advance_zero, hft, get_pointer_loc, floatKind]
  simp

/-- C5 (amended): for a float target, when after the optional sign the next
character is `i`, `I`, `n` or `N` and the full word read from there does not
case-insensitively equal INF, INFINITY or NAN, `parse_num` does not take a
distinct float-failure path: it falls through to the plain-number completion,
whose conversion of the accumulated span (the optional sign plus the word,
here with no fractional tail following the word) always fails, yielding the
hard `Generic` error "'span' is not a valid number" with the cursor rolled
back. -/
theorem parse_num_float_word_fallthrough (c : Char) (w rest sgn : List Char)
    (hsgn : sgn = [] ∨ sgn = ['+'] ∨ sgn = ['-'])
    (hc : c = 'i' ∨ c = 'I' ∨ c = 'n' ∨ c = 'N')
    (hall : ∀ x ∈ c :: w, rustIsAlphanumeric x = true)
    (hlit : ¬((c :: w).map Char.toUpper = "INF".toList ∨
      (c :: w).map Char.toUpper = "INFINITY".toList ∨
      (c :: w).map Char.toUpper = "NAN".toList))
    (hrest : ∀ r rs, rest = r :: rs → rustIsAlphanumeric r = false ∧ r ≠ '.') :
    parse_num floatKind ⟨sgn ++ (c :: w) ++ rest, 0, 0⟩ =
      (.error ⟨.generic, "\x27" ++ String.mk (sgn ++ c :: w) ++
        "\x27 is not a valid number"⟩, ⟨sgn ++ (c :: w) ++ rest, 0, 0⟩) := by
  have hcond : floatKind.isFloat = true ∧ (c = 'i' ∨ c = 'I' ∨ c = 'n' ∨ c = 'N') :=
    ⟨rfl, hc⟩
  have hpm : ¬(c = '-' ∨ c = '+') := by
    rcases hc with h2 | h2 | h2 | h2 <;> subst h2 <;> decide
  have hrest1 : ∀ r rs, rest = r :: rs → rustIsAlphanumeric r = false :=
    fun r rs hh => (hrest r rs hh).1
  have hws0 : rustIsWhitespace c = false :=
    not_ws_of_alnum (hall c (List.mem_cons_self c w))
  have hlit2 : ¬(c.toUpper = 'I' ∧ List.map Char.toUpper w = ['N', 'F'] ∨
      c.toUpper = 'I' ∧ List.map Char.toUpper w = ['N', 'F', 'I', 'N', 'I', 'T', 'Y'] ∨
      c.toUpper = 'N' ∧ List.map Char.toUpper w = ['A', 'N']) := by
    intro hx
    rcases hx with ⟨h1, h2⟩ | ⟨h1, h2⟩ | ⟨h1, h2⟩
    · exact hlit (Or.inl (by rw [List.map_cons, h1, h2]; decide))
    · exact hlit (Or.inr (Or.inl (by rw [List.map_cons, h1, h2]; decide)))
    · exact hlit (Or.inr (Or.inr (by rw [List.map_cons, h1, h2]; decide)))
  rcases hsgn with h | h | h <;> subst h
  · simp only [List.nil_append, List.cons_append]
    have hrem : remaining ⟨c :: (w ++ rest), 0, 0⟩ = (c :: w) ++ rest := by
      simp [remaining]
    have hskip : skip_whitespace ⟨c :: (w ++ rest), 0, 0⟩ =
        ⟨c :: (w ++ rest), 0, 0⟩ := by
      rw [skip_whitespace,
        show remaining ⟨c :: (w ++ rest), 0, 0⟩ = c :: (w ++ rest) from by simp [remaining],
        takeWhile_head_false _ hws0]
      rfl
    have hpk : peek ⟨c :: (w ++ rest), 0, 0⟩ = some (0, c) :=
      peek_eq_some _ c (w ++ rest) (by simp [remaining])
    have hrw := read_word_of_run ⟨c :: (w ++ rest), 0, 0⟩ c w rest hrem hall hrest1
    have hrem3 : remaining (advance ⟨c :: (w ++ rest), 0, 0⟩ (w.length + 1)) = rest := by
      rw [remaining_advance, hrem]
      have h2 := List.drop_left (c :: w) rest
      simpa using h2
    have hstuck : ∀ r rs,
        remaining (advance ⟨c :: (w ++ rest), 0, 0⟩ (w.length + 1)) = r :: rs →
        rustIsAsciiDigit r = false ∧ r ≠ '.' ∧ r ≠ 'e' ∧ r ≠ 'E' := by
      intro r rs hh
      rw [hrem3] at hh
      obtain ⟨hna, hnd⟩ := hrest r rs hh
      refine ⟨not_digit_of_not_alnum hna, hnd, ?_, ?_⟩
      · intro h2; rw [h2] at hna; exact absurd hna (by decide)
      · intro h2; rw [h2] at hna; exact absurd hna (by decide)
    have hnt := numTail_stuck (advance ⟨c :: (w ++ rest), 0, 0⟩ (w.length + 1)) 0 hstuck
    have hsub3 : read_substr (advance ⟨c :: (w ++ rest), 0, 0⟩ (w.length + 1)) 0
        ((advance ⟨c :: (w ++ rest), 0, 0⟩ (w.length + 1)).pointer - 0) = c :: w := by
      simp only [read_substr, advance]
      rw [show (0 + (w.length + 1) - 0) = w.length + 1 from by omega]
      simp [List.take_succ_cons, List.take_left]
    have hffs : floatFromStrOk (c :: w) = false := by
      have h2 := floatFromStrOk_letterword c w [] (Or.inl rfl) hc hlit
      simpa using h2
    simp [parse_num, hskip, hpk, hpm, hcond, hrw, hlit, hlit2, get_pointer_loc]
    rw [hnt]
    simp only [hsub3]
    simp [hffs, reset_pointer_loc, advance]
  · simp only [List.cons_append, List.nil_append]
    have hrem : remaining ⟨'+' :: c :: (w ++ rest), 0, 0⟩ = '+' :: c :: (w ++ rest) := by
      simp [remaining]
    have hskip : skip_whitespace ⟨'+' :: c :: (w ++ rest), 0, 0⟩ =
        ⟨'+' :: c :: (w ++ rest), 0, 0⟩ := by
      rw [skip_whitespace, hrem,
        takeWhile_head_false _ (by decide : rustIsWhitespace '+' = false)]
      rfl
    have hpk : peek ⟨'+' :: c :: (w ++ rest), 0, 0⟩ = some (0, '+') :=
      peek_eq_some _ '+' (c :: (w ++ rest)) hrem
    have hsgncond : ('+' : Char) = '-' ∨ ('+' : Char) = '+' := Or.inr rfl
    have hrem2 : remaining (advance ⟨'+' :: c :: (w ++ rest), 0, 0⟩ 1) =
        (c :: w) ++ rest := by
      rw [remaining_advance, hrem]
      simp
    have hpk2 : peek (advance ⟨'+' :: c :: (w ++ rest), 0, 0⟩ 1) =
        some ((advance ⟨'+' :: c :: (w ++ rest), 0, 0⟩ 1).pointer, c) :=
      peek_eq_some _ c (w ++ rest) (by rw [hrem2]; simp)
    have hrw := read_word_of_run (advance ⟨'+' :: c :: (w ++ rest), 0, 0⟩ 1)
      c w rest hrem2 hall hrest1
    have hrem3 : remaining (advance (advance ⟨'+' :: c :: (w ++ rest), 0, 0⟩ 1)
        (w.length + 1)) = rest := by
      rw [remaining_advance, hrem2]
      have h2 := List.drop_left (c :: w) rest
      simpa using h2
    have hstuck : ∀ r rs,
        remaining (advance (advance ⟨'+' :: c :: (w ++ rest), 0, 0⟩ 1) (w.length + 1)) =
          r :: rs →
        rustIsAsciiDigit r = false ∧ r ≠ '.' ∧ r ≠ 'e' ∧ r ≠ 'E' := by
      intro r rs hh
      rw [hrem3] at hh
      obtain ⟨hna, hnd⟩ := hrest r rs hh
      refine ⟨not_digit_of_not_alnum hna, hnd, ?_, ?_⟩
      · intro h2; rw [h2] at hna; exact absurd hna (by decide)
      · intro h2; rw [h2] at hna; exact absurd hna (by decide)
    have hnt := numTail_stuck (advance (advance ⟨'+' :: c :: (w ++ rest), 0, 0⟩ 1)
      (w.length + 1)) 0 hstuck
    have hsub3 : read_substr (advance (advance ⟨'+' :: c :: (w ++ rest), 0, 0⟩ 1)
        (w.length + 1)) 0
        ((advance (advance ⟨'+' :: c :: (w ++ rest), 0, 0⟩ 1) (w.length + 1)).pointer - 0) =
        '+' :: c :: w := by
      simp only [read_substr, advance]
      rw [show (0 + 1 + (w.length + 1) - 0) = (w.length + 1) + 1 from by omega]
      simp [List.take_succ_cons, List.take_left]
    have hffs : floatFromStrOk ('+' :: c :: w) = false := by
      have h2 := floatFromStrOk_letterword c w ['+'] (Or.inr (Or.inl rfl)) hc hlit
      simpa using h2
    simp [parse_num, hskip, hpk, hsgncond, hpk2, hcond, hrw, hlit, hlit2, get_pointer_loc]
    rw [hnt]
    simp only [hsub3]
    simp [hffs, reset_pointer_loc, advance]
  · simp only [List.cons_append, List.nil_append]
    have hrem : remaining ⟨'-' :: c :: (w ++ rest), 0, 0⟩ = '-' :: c :: (w ++ rest) := by
      simp [remaining]
    have hskip : skip_whitespace ⟨'-' :: c :: (w ++ rest), 0, 0⟩ =
        ⟨'-' :: c :: (w ++ rest), 0, 0⟩ := by
      rw [skip_whitespace, hrem,
        takeWhile_head_false _ (by decide : rustIsWhitespace '-' = false)]
      rfl
    have hpk : peek ⟨'-' :: c :: (w ++ rest), 0, 0⟩ = some (0, '-') :=
      peek_eq_some _ '-' (c :: (w ++ rest)) hrem
    have hsgncond : ('-' : Char) = '-' ∨ ('-' : Char) = '+' := Or.inl rfl
    have hrem2 : remaining (advance ⟨'-' :: c :: (w ++ rest), 0, 0⟩ 1) =
        (c :: w) ++ rest := by
      rw [remaining_advance, hrem]
      simp
    have hpk2 : peek (advance ⟨'-' :: c :: (w ++ rest), 0, 0⟩ 1) =
        some ((advance ⟨'-' :: c :: (w ++ rest), 0, 0⟩ 1).pointer, c) :=
      peek_eq_some _ c (w ++ rest) (by rw [hrem2]; simp)
    have hrw := read_word_of_run (advance ⟨'-' :: c :: (w ++ rest), 0, 0⟩ 1)
      c w rest hrem2 hall hrest1
    have hrem3 : remaining (advance (advance ⟨'-' :: c :: (w ++ rest), 0, 0⟩ 1)
        (w.length + 1)) = rest := by
      rw [remaining_advance, hrem2]
      have h2 := List.drop_left (c :: w) rest
      simpa using h2
    have hstuck : ∀ r rs,
        remaining (advance (advance ⟨'-' :: c :: (w ++ rest), 0, 0⟩ 1) (w.length + 1)) =
          r :: rs →
        rustIsAsciiDigit r = false ∧ r ≠ '.' ∧ r ≠ 'e' ∧ r ≠ 'E' := by
      intro r rs hh
      rw [hrem3] at hh
      obtain ⟨hna, hnd⟩ := hrest r rs hh
      refine ⟨not_digit_of_not_alnum hna, hnd, ?_, ?_⟩
      · intro h2; rw [h2] at hna; exact absurd hna (by decide)
      · intro h2; rw [h2] at hna; exact absurd hna (by decide)
    have hnt := numTail_stuck (advance (advance ⟨'-' :: c :: (w ++ rest), 0, 0⟩ 1)
      (w.length + 1)) 0 hstuck
    have hsub3 : read_substr (advance (advance ⟨'-' :: c :: (w ++ rest), 0, 0⟩ 1)
        (w.length + 1)) 0
        ((advance (advance ⟨'-' :: c :: (w ++ rest), 0, 0⟩ 1) (w.length + 1)).pointer - 0) =
        '-' :: c :: w := by
      simp only [read_substr, advance]
      rw [show (0 + 1 + (w.length + 1) - 0) = (w.length + 1) + 1 from by omega]
      simp [List.take_succ_cons, List.take_left]
    have hffs : floatFromStrOk ('-' :: c :: w) = false := by
      have h2 := floatFromStrOk_letterword c w ['-'] (Or.inr (Or.inr rfl)) hc hlit
      simpa using h2
    simp [parse_num, hskip, hpk, hsgncond, hpk2, hcond, hrw, hlit, hlit2, get_pointer_loc]
    rw [hnt]
    simp only [hsub3]
    simp [hffs, reset_pointer_loc, advance]

/-- Witness for the amended C5: `parse_num` over `+nix` with a float target
fails with "'+nix' is not a valid number" and the cursor fully rolled back. -/
theorem parse_num_float_word_fallthrough_witness :
    parse_num floatKind ⟨['+'] ++ ('n' :: "ix".toList) ++ [], 0, 0⟩ =
      (.error ⟨.generic, "\x27" ++ String.mk (['+'] ++ 'n' :: "ix".toList) ++
        "\x27 is not a valid number"⟩, ⟨['+'] ++ ('n' :: "ix".toList) ++ [], 0, 0⟩) :=
  parse_num_float_word_fallthrough 'n' "ix".toList [] ['+']
    (Or.inr (Or.inl rfl)) (Or.inr (Or.inr (Or.inl rfl)))
    (by decide) (by decide) (fun r rs h => List.noConfusion h)

end HbParse
